import Mathlib

/-!
Verification development for the `infinite-rs` module/tag loading pipeline.

The Rust sources are shallowly embedded: the buffered readers become an
explicit `Reader` state (a byte list plus a cursor), fallible reads become a
state-passing `Except` monad, machine integers become `Nat`/`Int` with
two's-complement conversion made explicit, and the external Kraken
decompressor becomes an oracle parameter recording its invocations.
-/

namespace InfiniteRs

/-- Error taxonomy, after `src/common/errors.rs` (`ModuleError`). -/
inductive ModuleErr where
  /-- `ModuleError::IncorrectMagic(u32)` -/
  | incorrectMagic (found : Nat)
  /-- `ModuleError::IncorrectVersion(i32)` -/
  | incorrectVersion (found : Int)
  /-- `ModuleError::NegativeBlockIndex(i32)` -/
  | negativeBlockIndex (found : Int)
  deriving DecidableEq, Repr

/-- Error taxonomy, after `src/common/errors.rs` (`TagError`).
The `recursionDepth` variant is referenced by `loader.rs` but its declaration
is absent from the sources provided; it is modelled from the spec:
"exceeding the depth bound yields a RecursionDepth error". -/
inductive TagErr where
  | incorrectMagic (found : Nat)
  | incorrectVersion (found : Int)
  | notLoaded
  | mainStructNotFound
  | noTagInfo
  | invalidTagSection
  | invalidTagStruct
  | recursionDepth
  deriving DecidableEq, Repr

/-- Error taxonomy, after `src/common/errors.rs` (`DecompressionError`). -/
inductive DecompErr where
  | bufferSizeOverflow
  | decompressionFailed (code : Int)
  deriving DecidableEq, Repr

/-- Top-level `Error` enum of `src/common/errors.rs`.  `readError` stands for
any `std::io` error; `rustPanic` makes a Rust panic (out-of-bounds index,
slice-length mismatch) an explicit outcome of the embedding. -/
inductive Err where
  | readError
  | utf8ReadingError
  | decompressionError (e : DecompErr)
  | moduleError (e : ModuleErr)
  | tryFromIntError
  | tagError (e : TagErr)
  | rustPanic
  deriving DecidableEq, Repr

/-- A buffered reader: the underlying bytes and the current cursor.  The
sources only ever read and seek their readers, so the byte contents are
immutable; mutation is confined to the cursor. -/
structure Reader where
  data : List Nat
  pos : Nat
  deriving DecidableEq, Repr

/-- The effect of Rust code holding a `&mut` reader and returning
`Result<a, Error>`: given the (immutable) underlying bytes and the current
cursor, produce a result and the new cursor; the cursor survives an
early-return error, as a `&mut` reader does. -/
def RdM (α : Type) : Type := List Nat → Nat → Except Err α × Nat

instance : Monad RdM where
  pure a := fun _ pos => (.ok a, pos)
  bind x f := fun data pos =>
    match x data pos with
    | (.ok a, pos1) => f a data pos1
    | (.error e, pos1) => (.error e, pos1)

/-- `return Err(e)` / the `?` operator propagating an error. -/
def rdThrow (e : Err) : RdM α := fun _ pos => (.error e, pos)

/-- Run a reader computation against a `Reader` value, as the sources do when
they hand `&mut reader` to a parsing function. -/
def runRd (x : RdM α) (r : Reader) : Except Err α × Reader :=
  ((x r.data r.pos).1, ⟨r.data, (x r.data r.pos).2⟩)

theorem RdM.bind_apply (x : RdM α) (f : α → RdM β) (data : List Nat)
    (pos : Nat) :
    (x >>= f) data pos =
      match x data pos with
      | (.ok a, pos1) => f a data pos1
      | (.error e, pos1) => (.error e, pos1) := rfl

theorem RdM.bind_ok (x : RdM α) (f : α → RdM β) {data : List Nat}
    {pos : Nat} {a : α} {pos1 : Nat} (h : x data pos = (.ok a, pos1)) :
    (x >>= f) data pos = f a data pos1 := by
  show (match x data pos with
    | (.ok a, pos1) => f a data pos1
    | (.error e, pos1) => (.error e, pos1)) = f a data pos1
  rw [h]

theorem RdM.bind_error (x : RdM α) (f : α → RdM β) {data : List Nat}
    {pos : Nat} {e : Err} {pos1 : Nat} (h : x data pos = (.error e, pos1)) :
    (x >>= f) data pos = (.error e, pos1) := by
  show (match x data pos with
    | (.ok a, pos1) => f a data pos1
    | (.error e, pos1) => (.error e, pos1)) = (.error e, pos1)
  rw [h]

theorem RdM.pure_apply (a : α) (data : List Nat) (pos : Nat) :
    (pure a : RdM α) data pos = (.ok a, pos) := rfl

theorem RdM.throw_apply (e : Err) (data : List Nat) (pos : Nat) :
    (rdThrow e : RdM α) data pos = (.error e, pos) := rfl

/-- `read_exact` into a fresh buffer of `n` bytes. -/
def readBytes (n : Nat) : RdM (List Nat) := fun data pos =>
  if pos + n ≤ data.length then
    (.ok ((data.drop pos).take n), pos + n)
  else
    (.error .readError, pos)

/-- `Seek::seek(SeekFrom::Start p)` (also `rewind` at `p = 0`). -/
def seekStart (p : Nat) : RdM Unit := fun _ _ => (.ok (), p)

/-- `seek_relative(n)` for a nonnegative skip. -/
def seekRel (n : Nat) : RdM Unit := fun _ pos => (.ok (), pos + n)

/-- `stream_position()`. -/
def streamPosition : RdM Nat := fun _ pos => (.ok pos, pos)

/-- Little-endian accumulation of a byte list into a natural number. -/
def le : List Nat → Nat
  | [] => 0
  | b :: t => b + 256 * le t

/-- Two's-complement reinterpretation of a `w`-bit unsigned value. -/
def toSigned (w : Nat) (v : Nat) : Int :=
  if v < 2 ^ (w - 1) then (v : Int) else (v : Int) - 2 ^ w

/-- `as usize` on a signed value (64-bit two's complement, sign loss kept). -/
def usizeOf (i : Int) : Nat := (i % (2 ^ 64 : Int)).toNat

def readU8 : RdM Nat := do
  let bs ← readBytes 1
  pure (le bs)

def readU16 : RdM Nat := do
  let bs ← readBytes 2
  pure (le bs)

def readU32 : RdM Nat := do
  let bs ← readBytes 4
  pure (le bs)

def readU64 : RdM Nat := do
  let bs ← readBytes 8
  pure (le bs)

def readU128 : RdM Nat := do
  let bs ← readBytes 16
  pure (le bs)

def readI32 : RdM Int := do
  let v ← readU32
  pure (toSigned 32 v)

def readI64 : RdM Int := do
  let v ← readU64
  pure (toSigned 64 v)

def readI128 : RdM Int := do
  let v ← readU128
  pure (toSigned 128 v)

/-- State of the byte-wise UTF-8 validation automaton: either at a character
boundary, or expecting a byte in `[lo, hi]` followed by `n` further generic
continuation bytes (each in `[128, 191]`). -/
inductive Utf8State where
  | start
  | cont (n : Nat) (lo hi : Nat)
  deriving DecidableEq, Repr

/-- Byte-wise run of the UTF-8 validation automaton, mirroring what
`String::from_utf8` accepts (no overlongs, no surrogates, max U+10FFFF). -/
def utf8Run : List Nat → Utf8State → Bool
  | [], .start => true
  | [], .cont _ _ _ => false
  | b :: t, .start =>
    if b ≤ 127 then utf8Run t .start
    else if b < 194 then false
    else if b ≤ 223 then utf8Run t (.cont 0 128 191)
    else if b ≤ 239 then
      utf8Run t (.cont 1 (if b = 224 then 160 else 128)
        (if b = 237 then 159 else 191))
    else if b ≤ 244 then
      utf8Run t (.cont 2 (if b = 240 then 144 else 128)
        (if b = 244 then 143 else 191))
    else false
  | b :: t, .cont n lo hi =>
    if lo ≤ b ∧ b ≤ hi then
      match n with
      | 0 => utf8Run t .start
      | m + 1 => utf8Run t (.cont m 128 191)
    else false

/-- Strict UTF-8 validity of a byte sequence: the success condition of
`String::from_utf8`. -/
def utf8Valid (l : List Nat) : Bool := utf8Run l .start

/-- `BufReaderExt::read_fixed_string` from `src/common/extensions.rs`: read
exactly `length` bytes, return the empty string on the 4-byte all-`0xFF`
sentinel, otherwise require valid UTF-8.  The string value is represented by
its UTF-8 byte list. -/
def readFixedString (length : Nat) : RdM (List Nat) := do
  let buffer ← readBytes length
  if buffer = [255, 255, 255, 255] then
    pure []
  else if utf8Valid buffer then
    pure buffer
  else
    rdThrow .utf8ReadingError

/-- Modelled from the spec: `read_null_terminated_string` is called by the
container and tag parsers but its definition is absent from the sources
provided; per the spec, string-table entries are "separated by a null
terminator", so it consumes bytes up to and including the first `0`. -/
def readNullTerminatedString : RdM (List Nat) := fun data pos =>
  let rest := data.drop pos
  let s := rest.takeWhile (fun b => b ≠ 0)
  if s.length < rest.length then
    (.ok s, pos + s.length + 1)
  else
    (.error .readError, pos)

/-- `ModuleVersion` from `src/module/header.rs`: the four known revisions. -/
inductive ModuleVersion where
  | flight1
  | release
  | campaignFlight
  | season3
  deriving DecidableEq, Repr

/-- The `#[repr(i32)]` discriminants of `ModuleVersion`. -/
def ModuleVersion.toInt : ModuleVersion → Int
  | .flight1 => 48
  | .release => 51
  | .campaignFlight => 52
  | .season3 => 53

/-- The derived `Ord`/`PartialOrd` on `ModuleVersion` (by discriminant). -/
def ModuleVersion.leB (a b : ModuleVersion) : Bool := a.toInt ≤ b.toInt

/-- The derived `Ord` strict comparison on `ModuleVersion`. -/
def ModuleVersion.ltB (a b : ModuleVersion) : Bool := a.toInt < b.toInt

/-- `ModuleVersion::try_from_primitive`. -/
def ModuleVersion.tryFromPrimitive (v : Int) : Option ModuleVersion :=
  if v = 48 then some .flight1
  else if v = 51 then some .release
  else if v = 52 then some .campaignFlight
  else if v = 53 then some .season3
  else none

/-- `ModuleHeader` from `src/module/header.rs`. -/
structure ModuleHeader where
  magic : Nat
  version : ModuleVersion
  moduleId : Int
  fileCount : Nat
  manifest0Count : Nat
  manifest1Count : Nat
  manifest2Count : Nat
  resourceIndex : Int
  stringsSize : Nat
  resourceCount : Nat
  blockCount : Nat
  buildVersion : Nat
  hd1Delta : Nat
  dataSize : Nat
  deriving DecidableEq, Repr

/-- The `mohd` magic constant of `src/module/header.rs`. -/
def MODULE_HEADER_MAGIC : Nat := 0x64686F6D

/-- `ModuleHeader::read` from `src/module/header.rs`: magic is read and
validated first, then the version, then the remaining fields. -/
def moduleHeaderRead : RdM ModuleHeader := do
  let magic ← readU32
  if magic ≠ MODULE_HEADER_MAGIC then
    rdThrow (.moduleError (.incorrectMagic magic))
  else
    let versionRaw ← readI32
    match ModuleVersion.tryFromPrimitive versionRaw with
    | none => rdThrow (.moduleError (.incorrectVersion versionRaw))
    | some version => do
      let moduleId ← readI64
      let fileCount ← readU32
      let manifest0 ← readU32
      let manifest1 ← readU32
      let manifest2 ← readU32
      let resourceIndex ← readI32
      let stringsSize ← readU32
      let resourceCount ← readU32
      let blockCount ← readU32
      let buildVersion ← readU64
      let hd1Delta ← readU64
      let dataSize ← readU64
      if ModuleVersion.leB .release version then
        seekRel 8
      pure {
        magic := magic, version := version, moduleId := moduleId,
        fileCount := fileCount, manifest0Count := manifest0,
        manifest1Count := manifest1, manifest2Count := manifest2,
        resourceIndex := resourceIndex, stringsSize := stringsSize,
        resourceCount := resourceCount, blockCount := blockCount,
        buildVersion := buildVersion, hd1Delta := hd1Delta,
        dataSize := dataSize }

/-- `TagHeader` from `src/tag/header.rs`. -/
structure TagHeader where
  magic : Nat
  version : Int
  rootStructGuid : Int
  checksum : Int
  dependencyCount : Nat
  datablockCount : Nat
  tagstructCount : Nat
  dataReferenceCount : Nat
  tagReferenceCount : Nat
  stringTableSize : Nat
  zonesetSize : Nat
  unknown : Nat
  headerSize : Nat
  dataSize : Nat
  resourceSize : Nat
  actualResourceSize : Nat
  headerAlignment : Nat
  tagAlignment : Nat
  resourceAlignment : Nat
  actualResourceAlignment : Nat
  isResource : Bool
  deriving DecidableEq, Repr

/-- The `ucsh` magic constant of `src/tag/header.rs`. -/
def TAG_HEADER_MAGIC : Nat := 0x68736375

/-- The expected tag version of `src/tag/header.rs`. -/
def TAG_HEADER_VERSION : Int := 27

/-- `TagHeader::read` from `src/tag/header.rs`: magic first, then version,
each validated before anything else is read. -/
def tagHeaderRead : RdM TagHeader := do
  let magic ← readU32
  if magic ≠ TAG_HEADER_MAGIC then
    rdThrow (.tagError (.incorrectMagic magic))
  else
    let version ← readI32
    if version ≠ TAG_HEADER_VERSION then
      rdThrow (.tagError (.incorrectVersion version))
    else
      let rootStructGuid ← readI64
      let checksum ← readI64
      let dependencyCount ← readU32
      let datablockCount ← readU32
      let tagstructCount ← readU32
      let dataReferenceCount ← readU32
      let tagReferenceCount ← readU32
      let stringTableSize ← readU32
      let zonesetSize ← readU32
      let unknown ← readU32
      let headerSize ← readU32
      let dataSize ← readU32
      let resourceSize ← readU32
      let actualResourceSize ← readU32
      let headerAlignment ← readU8
      let tagAlignment ← readU8
      let resourceAlignment ← readU8
      let actualResourceAlignment ← readU8
      let isResourceRaw ← readU32
      pure {
        magic := magic, version := version,
        rootStructGuid := rootStructGuid, checksum := checksum,
        dependencyCount := dependencyCount, datablockCount := datablockCount,
        tagstructCount := tagstructCount,
        dataReferenceCount := dataReferenceCount,
        tagReferenceCount := tagReferenceCount,
        stringTableSize := stringTableSize, zonesetSize := zonesetSize,
        unknown := unknown, headerSize := headerSize, dataSize := dataSize,
        resourceSize := resourceSize,
        actualResourceSize := actualResourceSize,
        headerAlignment := headerAlignment, tagAlignment := tagAlignment,
        resourceAlignment := resourceAlignment,
        actualResourceAlignment := actualResourceAlignment,
        isResource := isResourceRaw ≠ 0 }

/-- `read_enumerable::<T>(count)` from `src/common/extensions.rs`:
read `count` records in order. -/
def readEnumerable (rd : RdM α) : Nat → RdM (List α)
  | 0 => pure []
  | n + 1 => do
    let x ← rd
    let xs ← readEnumerable rd n
    pure (x :: xs)

/-- `TagDependency` from `src/tag/dependency.rs`.  Strings are represented by
their UTF-8 byte lists; `tag_group` is stored reversed on disk and reversed
back on read. -/
structure TagDependency where
  tagGroup : List Nat
  nameOffset : Nat
  assetId : Nat
  tagId : Int
  parentIndex : Int
  name : Option (List Nat)
  deriving DecidableEq, Repr

/-- `TagDependency::read`. -/
def tagDependencyRead : RdM TagDependency := do
  let group ← readFixedString 4
  let nameOffset ← readU32
  let assetId ← readU64
  let tagId ← readI32
  let parentIndex ← readI32
  pure { tagGroup := group.reverse, nameOffset := nameOffset,
         assetId := assetId, tagId := tagId, parentIndex := parentIndex,
         name := none }

/-- `TagSectionType` from `src/tag/datablock.rs`. -/
inductive TagSectionType where
  | header
  | tagData
  | resourceData
  | actualResource
  deriving DecidableEq, Repr

/-- `TagSectionType::try_from` on a `u16`. -/
def TagSectionType.tryFrom (v : Nat) : Option TagSectionType :=
  if v = 0 then some .header
  else if v = 1 then some .tagData
  else if v = 2 then some .resourceData
  else if v = 3 then some .actualResource
  else none

/-- `TagDataBlock` from `src/tag/datablock.rs`. -/
structure TagDataBlock where
  entrySize : Nat
  padding : Nat
  sectionType : TagSectionType
  offset : Nat
  deriving DecidableEq, Repr

/-- `TagDataBlock::read`. -/
def tagDataBlockRead : RdM TagDataBlock := do
  let entrySize ← readU32
  let padding ← readU16
  let sectionRaw ← readU16
  match TagSectionType.tryFrom sectionRaw with
  | none => rdThrow (.tagError .invalidTagSection)
  | some sectionType => do
    let offset ← readU64
    pure { entrySize := entrySize, padding := padding,
           sectionType := sectionType, offset := offset }

/-- `TagStructType` from `src/tag/structure.rs`. -/
inductive TagStructType where
  | mainStruct
  | tagBlock
  | resource
  | custom
  | literal
  deriving DecidableEq, Repr

/-- `TagStructType::try_from` on a `u16`. -/
def TagStructType.tryFrom (v : Nat) : Option TagStructType :=
  if v = 0 then some .mainStruct
  else if v = 1 then some .tagBlock
  else if v = 2 then some .resource
  else if v = 3 then some .custom
  else if v = 4 then some .literal
  else none

/-- `TagStruct` from `src/tag/structure.rs`.  `field_block` is compared
against a signed owning-block index by the resolver, so it is carried as an
integer. -/
structure TagStruct where
  guid : Nat
  structType : TagStructType
  unknown : Nat
  targetIndex : Int
  fieldBlock : Int
  fieldOffset : Nat
  deriving DecidableEq, Repr

/-- `TagStruct::read`; the source unwraps the struct-type conversion, so an
unknown discriminant is a panic. -/
def tagStructRead : RdM TagStruct := do
  let guid ← readU128
  let structRaw ← readU16
  match TagStructType.tryFrom structRaw with
  | none => rdThrow .rustPanic
  | some structType => do
    let unknown ← readU16
    let targetIndex ← readI32
    let fieldBlock ← readU32
    let fieldOffset ← readU32
    pure { guid := guid, structType := structType, unknown := unknown,
           targetIndex := targetIndex, fieldBlock := (fieldBlock : Int),
           fieldOffset := fieldOffset }

/-- `TagDataReference` from `src/tag/data_reference.rs`. -/
structure TagDataReference where
  parentStructIndex : Int
  unknown : Int
  targetIndex : Int
  fieldBlock : Int
  fieldOffset : Nat
  deriving DecidableEq, Repr

/-- `TagDataReference::read`. -/
def tagDataReferenceRead : RdM TagDataReference := do
  let parentStructIndex ← readI32
  let unknown ← readI32
  let targetIndex ← readI32
  let fieldBlock ← readI32
  let fieldOffset ← readU32
  pure { parentStructIndex := parentStructIndex, unknown := unknown,
         targetIndex := targetIndex, fieldBlock := fieldBlock,
         fieldOffset := fieldOffset }

/-- `TagReference` from `src/tag/reference.rs`. -/
structure TagReference where
  fieldBlock : Int
  fieldOffset : Nat
  nameOffset : Nat
  dependencyIndex : Int
  name : Option (List Nat)
  deriving DecidableEq, Repr

/-- `TagReference::read`. -/
def tagReferenceRead : RdM TagReference := do
  let fieldBlock ← readI32
  let fieldOffset ← readU32
  let nameOffset ← readU32
  let dependencyIndex ← readI32
  pure { fieldBlock := fieldBlock, fieldOffset := fieldOffset,
         nameOffset := nameOffset, dependencyIndex := dependencyIndex,
         name := none }

/-- `TagFile` from `src/tag/loader.rs`. -/
structure TagFile where
  header : TagHeader
  dependencies : List TagDependency
  datablockDefinitions : List TagDataBlock
  structDefinitions : List TagStruct
  dataReferences : List TagDataReference
  tagReferences : List TagReference
  deriving DecidableEq, Repr

/-- The pre-Season-3 name-resolution loop of `TagFile::read` over the
dependency list. -/
def resolveDependencyNames (stringTablePosition : Nat) :
    List TagDependency → RdM (List TagDependency)
  | [] => pure []
  | d :: t => do
    seekStart (stringTablePosition + d.nameOffset)
    let name ← readNullTerminatedString
    let rest ← resolveDependencyNames stringTablePosition t
    pure ({ d with name := some name } :: rest)

/-- The pre-Season-3 name-resolution loop of `TagFile::read` over the
tag-reference list. -/
def resolveReferenceNames (stringTablePosition : Nat) :
    List TagReference → RdM (List TagReference)
  | [] => pure []
  | d :: t => do
    seekStart (stringTablePosition + d.nameOffset)
    let name ← readNullTerminatedString
    let rest ← resolveReferenceNames stringTablePosition t
    pure ({ d with name := some name } :: rest)

/-- `TagFile::read` from `src/tag/loader.rs`: header, then the five tables in
fixed order using the header's counts, then (before Season 3) name
resolution from the trailing string table, and finally the authoritative
seek to `header_size`. -/
def tagFileRead (version : ModuleVersion) : RdM TagFile := do
  let header ← tagHeaderRead
  let dependencies ← readEnumerable tagDependencyRead header.dependencyCount
  let datablocks ← readEnumerable tagDataBlockRead header.datablockCount
  let structs ← readEnumerable tagStructRead header.tagstructCount
  let dataReferences ← readEnumerable tagDataReferenceRead header.dataReferenceCount
  let tagReferences ← readEnumerable tagReferenceRead header.tagReferenceCount
  let stringTablePosition ← streamPosition
  if ModuleVersion.ltB version .season3 then do
    let dependencies ← resolveDependencyNames stringTablePosition dependencies
    let tagReferences ← resolveReferenceNames stringTablePosition tagReferences
    seekStart header.headerSize
    pure { header := header, dependencies := dependencies,
           datablockDefinitions := datablocks, structDefinitions := structs,
           dataReferences := dataReferences, tagReferences := tagReferences }
  else do
    seekStart header.headerSize
    pure { header := header, dependencies := dependencies,
           datablockDefinitions := datablocks, structDefinitions := structs,
           dataReferences := dataReferences, tagReferences := tagReferences }

/-- `ModuleBlockEntry` from `src/module/block.rs`. -/
structure ModuleBlockEntry where
  compressedOffset : Int
  compressedSize : Int
  decompressedOffset : Int
  decompressedSize : Int
  isCompressed : Bool
  deriving DecidableEq, Repr

/-- `DataOffsetType` from `src/module/file.rs` as a record of its bits.
The `USE_HD1` and `USE_HD2` bits are declared in the source; the `INVALID`
bit is referenced by `loader.rs::read_tag` but its constant is absent from
the sources provided, so that flag is modelled from the spec: "if the
entry's data-offset flags mark it invalid, returns not present". -/
structure DataOffsetType where
  useHd1 : Bool
  useHd2 : Bool
  invalid : Bool
  deriving DecidableEq, Repr

/-- `FileEntryFlags` from `src/module/file.rs` as a record of its bits. -/
structure FileEntryFlags where
  compressed : Bool
  hasBlocks : Bool
  rawFile : Bool
  deriving DecidableEq, Repr

/-- `ModuleFileEntry` from `src/module/file.rs`.  The lazily populated
decompressed buffer (`data_stream`) is a `Reader`; string values are carried
as Lean strings. -/
structure ModuleFileEntry where
  unknown : Nat
  flags : FileEntryFlags
  blockCount : Nat
  blockIndex : Int
  resourceIndex : Int
  tagGroup : String
  dataOffset : Nat
  dataOffsetFlags : DataOffsetType
  totalCompressedSize : Nat
  totalUncompressedSize : Nat
  tagId : Int
  uncompressedHeaderSize : Nat
  uncompressedTagDataSize : Nat
  uncompressedResourceDataSize : Nat
  uncompressedActualResourceSize : Nat
  headerAlignment : Nat
  tagDataAlignment : Nat
  resourceDataAlignment : Nat
  actualResourceDataAlignment : Nat
  nameOffset : Nat
  parentIndex : Int
  assetHash : Int
  resourceCount : Int
  tagName : String
  dataStream : Option Reader
  tagInfo : Option TagFile
  isLoaded : Bool
  deriving DecidableEq, Repr

instance : Inhabited ModuleFileEntry where
  default := {
    unknown := 0,
    flags := ⟨false, false, false⟩,
    blockCount := 0, blockIndex := 0, resourceIndex := 0, tagGroup := "",
    dataOffset := 0, dataOffsetFlags := ⟨false, false, false⟩,
    totalCompressedSize := 0, totalUncompressedSize := 0, tagId := 0,
    uncompressedHeaderSize := 0, uncompressedTagDataSize := 0,
    uncompressedResourceDataSize := 0, uncompressedActualResourceSize := 0,
    headerAlignment := 0, tagDataAlignment := 0, resourceDataAlignment := 0,
    actualResourceDataAlignment := 0, nameOffset := 0, parentIndex := 0,
    assetHash := 0, resourceCount := 0, tagName := "", dataStream := none,
    tagInfo := none, isLoaded := false }

/-- One recorded invocation of the external decompressor: the compressed
input handed to it and the expected output size. -/
structure KrakenCall where
  input : List Nat
  expectedSize : Nat
  deriving DecidableEq, Repr

/-- Modelled from the spec: the native `Kraken_Decompress` C function is an
external collaborator outside the sources.  An oracle yields its return code
and the bytes it leaves in the destination buffer; `krakenRun` normalises
the written bytes to the buffer's actual length `size + 8`. -/
def KrakenOracle : Type := List Nat → Nat → Int × List Nat

/-- The destination buffer of `size + 8` zero bytes after the oracle's write,
as seen by the safe wrapper. -/
def krakenRun (oracle : KrakenOracle) (compressed : List Nat) (size : Nat) :
    Int × List Nat :=
  let w := (oracle compressed size).2.take (size + 8)
  ((oracle compressed size).1, w ++ List.replicate (size + 8 - w.length) 0)

/-- `decompress` from `src/module/kraken.rs`: negative return code fails with
`DecompressionFailed`, a reported size beyond the `size + 8` buffer fails
with `BufferSizeOverflow`, and otherwise the buffer resized to the reported
size becomes the output verbatim. -/
def krakenDecompress (oracle : KrakenOracle) (compressed : List Nat)
    (size : Nat) : Except Err (List Nat) :=
  let result := (krakenRun oracle compressed size).1
  let buffer := (krakenRun oracle compressed size).2
  if result < 0 then
    .error (.decompressionError (.decompressionFailed result))
  else if result.toNat > size + 8 then
    .error (.decompressionError .bufferSizeOverflow)
  else
    .ok (buffer.take result.toNat)

/-- Replace `data[off .. off + src.length]` by `src` (callers check bounds,
as Rust slicing panics otherwise). -/
def setSlice (data : List Nat) (off : Nat) (src : List Nat) : List Nat :=
  data.take off ++ src ++ data.drop (off + src.length)

/-- `read_uncompressed_block` from `src/module/file.rs`: read the block's
compressed-size bytes straight into
`data[decompressed_offset .. decompressed_offset + compressed_size]`. -/
def readUncompressedBlock (block : ModuleBlockEntry) (data : List Nat) :
    RdM (List Nat) :=
  let off := usizeOf block.decompressedOffset
  let cs := usizeOf block.compressedSize
  if off + cs ≤ data.length then do
    let bytes ← readBytes cs
    pure (setSlice data off bytes)
  else
    rdThrow .rustPanic

/-- `read_compressed_block` from `src/module/file.rs`: read the compressed
bytes, decompress them to the block's decompressed size, and copy the result
into `data[decompressed_offset .. decompressed_offset + decompressed_size]`
(`copy_from_slice` panics if the produced size differs). -/
def readCompressedBlock (oracle : KrakenOracle) (block : ModuleBlockEntry)
    (data : List Nat) : RdM (List Nat × List KrakenCall) :=
  let off := usizeOf block.decompressedOffset
  let ds := usizeOf block.decompressedSize
  let cs := usizeOf block.compressedSize
  do
  let compressed ← readBytes cs
  match krakenDecompress oracle compressed ds with
  | .error e => rdThrow e
  | .ok decompressed =>
    if off + ds ≤ data.length then
      if decompressed.length = ds then
        pure (setSlice data off decompressed, [⟨compressed, ds⟩])
      else
        rdThrow .rustPanic
    else
      rdThrow .rustPanic

/-- The per-block loop of `read_multiple_blocks`. -/
def readBlocksLoop (oracle : KrakenOracle) (data : List Nat) :
    List ModuleBlockEntry → RdM (List Nat × List KrakenCall)
  | [] => pure (data, [])
  | block :: rest => do
    let step ←
      if block.isCompressed then
        readCompressedBlock oracle block data
      else do
        let d ← readUncompressedBlock block data
        pure (d, [])
    let next ← readBlocksLoop oracle step.1 rest
    pure (next.1, step.2 ++ next.2)

/-- `ModuleFileEntry::read_multiple_blocks` from `src/module/file.rs`: a
negative stored block index is rejected with the dedicated
`NegativeBlockIndex` error before anything is read; otherwise the reader is
positioned at the file offset and the slice
`blocks[block_index .. block_index + block_count]` is processed in order. -/
def readMultipleBlocks (oracle : KrakenOracle) (entry : ModuleFileEntry)
    (blocks : List ModuleBlockEntry) (fileOffset : Nat) (data : List Nat) :
    RdM (List Nat × List KrakenCall) :=
  if entry.blockIndex < 0 then
    rdThrow (.moduleError (.negativeBlockIndex entry.blockIndex))
  else do
    let firstBlockIndex := usizeOf entry.blockIndex
    seekStart fileOffset
    if firstBlockIndex + entry.blockCount ≤ blocks.length then
      readBlocksLoop oracle data
        ((blocks.drop firstBlockIndex).take entry.blockCount)
    else
      rdThrow .rustPanic

/-- `read_single_block` from `src/module/file.rs`: seek to the file offset,
read `total_compressed_size` bytes; equal compressed/uncompressed sizes mean
the raw bytes are copied verbatim, otherwise they are decompressed with the
declared uncompressed size as the expected output length. -/
def readSingleBlock (oracle : KrakenOracle) (entry : ModuleFileEntry)
    (fileOffset : Nat) (data : List Nat) :
    RdM (List Nat × List KrakenCall) := do
  seekStart fileOffset
  let compressedSize := entry.totalCompressedSize
  let block ← readBytes compressedSize
  if compressedSize = entry.totalUncompressedSize then
    if block.length = data.length then
      pure (block, [])
    else
      rdThrow .rustPanic
  else
    match krakenDecompress oracle block entry.totalUncompressedSize with
    | .ok out => pure (out, [⟨block, entry.totalUncompressedSize⟩])
    | .error e => rdThrow e

/-- The tail of `ModuleFileEntry::read_tag` after block assembly: wrap the
assembled bytes as the entry's data stream, parse the tag file out of it
when the entry is an addressable tag (`tag_id != -1`), and mark the entry
loaded. -/
def entryStoreLoaded (version : ModuleVersion) (entry : ModuleFileEntry)
    (assembled : List Nat × List KrakenCall) :
    RdM (ModuleFileEntry × List KrakenCall) :=
  let dataStream : Reader := ⟨assembled.1, 0⟩
  if entry.tagId ≠ -1 then
    match runRd (tagFileRead version) dataStream with
    | (.ok tagfile, stream1) =>
      pure
        ({ entry with
           dataStream := some stream1,
           tagInfo := some tagfile,
           isLoaded := true },
         assembled.2)
    | (.error e, _) => rdThrow e
  else
    pure
      ({ entry with
         dataStream := some dataStream,
         isLoaded := true },
       assembled.2)

/-- `ModuleFileEntry::read_tag` from `src/module/file.rs`: a no-op when
already loaded; otherwise rewind, assemble the logical buffer through the
single- or multi-block path, and store/parse it via `entryStoreLoaded`.
The recorded decompressor invocations are returned alongside the updated
entry. -/
def entryReadTag (oracle : KrakenOracle) (version : ModuleVersion)
    (blocks : List ModuleBlockEntry) (dataOffset : Nat)
    (entry : ModuleFileEntry) : RdM (ModuleFileEntry × List KrakenCall) :=
  if entry.isLoaded then
    pure (entry, [])
  else do
    let fileOffset := dataOffset + entry.dataOffset
    let data := List.replicate entry.totalUncompressedSize 0
    seekStart 0
    let assembled ←
      if entry.blockCount ≠ 0 then
        readMultipleBlocks oracle entry blocks fileOffset data
      else
        readSingleBlock oracle entry fileOffset data
    entryStoreLoaded version entry assembled

/-- `ModuleFile` from `src/module/loader.rs`: the per-module tables plus the
open primary and optional auxiliary (HD1) readers. -/
structure ModuleFile where
  header : ModuleHeader
  files : List ModuleFileEntry
  resourceIndices : List Nat
  blocks : List ModuleBlockEntry
  fileDataOffset : Nat
  moduleFile : Option Reader
  hd1File : Option Reader
  useHd1 : Bool
  deriving DecidableEq, Repr

/-- The child-ordinal computation inside `ModuleFile::get_tag_path`: walk the
parent's resource span, dereferencing `files[i]` for each listed index
(an out-of-range index is a panic, as in Rust), and count the entries before
the first one that is pointer-equal to the child — two references into the
same `files` vector are pointer-equal exactly when the indices coincide. -/
def childOrdinal (filesLength : Nat) (childIdx : Nat) :
    List Nat → Except Err Nat
  | [] => .ok 0
  | i :: rest =>
    if i < filesLength then
      if i = childIdx then .ok 0
      else
        match childOrdinal filesLength childIdx rest with
        | .ok n => .ok (n + 1)
        | .error e => .error e
    else .error .rustPanic

/-- `ModuleFile::get_tag_path` from `src/module/loader.rs`: recursion depth
beyond 3 is rejected with the `RecursionDepth` error; resource entries
(whose cached name is `"-1"` and which have a parent) are named by their
ordinal in the parent's resource span, recursing into the parent's path when
the parent is itself unnamed; addressable tags are named
`"<group>/<id>.<group>"`. -/
def getTagPath (m : ModuleFile) (index : Nat) (depth : Nat) :
    Except Err String :=
  if _h : 3 < depth then
    .error (.tagError .recursionDepth)
  else
    match m.files[index]? with
    | none => .error .rustPanic
    | some file =>
      if file.tagName = "-1" ∧ file.parentIndex ≠ -1 then
        if file.parentIndex < 0 then .error .tryFromIntError
        else
          match m.files[file.parentIndex.toNat]? with
          | none => .error .rustPanic
          | some parent =>
            if parent.resourceIndex < 0 ∨ parent.resourceCount < 0 then
              .error .tryFromIntError
            else
              let a := parent.resourceIndex.toNat
              let n := parent.resourceCount.toNat
              if a + n ≤ m.resourceIndices.length then
                match childOrdinal m.files.length index
                    ((m.resourceIndices.drop a).take n) with
                | .error e => .error e
                | .ok childIndex =>
                  if parent.tagName = "-1" then
                    match getTagPath m file.parentIndex.toNat (depth + 1) with
                    | .error e => .error e
                    | .ok parentPath =>
                      .ok (parentPath ++ "[" ++ toString childIndex ++
                        ":resource]")
                  else
                    .ok (parent.tagGroup ++ "/" ++ parent.tagName ++ "." ++
                      parent.tagGroup ++ "[" ++ toString childIndex ++
                      ":resource]")
              else .error .rustPanic
      else if file.tagId ≠ -1 then
        .ok (file.tagGroup ++ "/" ++ toString file.tagId ++ "." ++
          file.tagGroup)
      else
        .ok (toString file.tagId)
  termination_by 4 - depth
  decreasing_by simp_wf; omega

/-- `ModuleFile::read_tag` from `src/module/loader.rs`: entries whose
data-offset flags mark them invalid are reported as not present (`none`)
without an error; entries flagged for the auxiliary HD1 stream are read from
it when it was opened and are otherwise silently reported as not present;
all other entries are read from the primary stream; a successful call
returns the entry's tag id. -/
def moduleReadTag (oracle : KrakenOracle) (m : ModuleFile) (index : Nat) :
    Except Err (Option Int) × ModuleFile :=
  match m.files[index]? with
  | none => (.error .rustPanic, m)
  | some file =>
    if file.dataOffsetFlags.invalid then
      (.ok none, m)
    else if file.dataOffsetFlags.useHd1 then
      match m.hd1File with
      | some hd1 =>
        let offset :=
          if ModuleVersion.leB m.header.version .season3 then
            m.header.hd1Delta
          else
            m.fileDataOffset - m.header.hd1Delta
        match runRd (entryReadTag oracle m.header.version m.blocks offset file)
            hd1 with
        | (.ok (file1, _), hd1After) =>
          (.ok (some file1.tagId),
            { m with files := m.files.set index file1,
                     hd1File := some hd1After })
        | (.error e, hd1After) =>
          (.error e, { m with hd1File := some hd1After })
      | none => (.ok none, m)
    else
      match m.moduleFile with
      | some primary =>
        match runRd (entryReadTag oracle m.header.version m.blocks
            m.fileDataOffset file) primary with
        | (.ok (file1, _), primaryAfter) =>
          (.ok (some file1.tagId),
            { m with files := m.files.set index file1,
                     moduleFile := some primaryAfter })
        | (.error e, primaryAfter) =>
          (.error e, { m with moduleFile := some primaryAfter })
      | none => (.ok (some file.tagId), m)

/-- One declared field of a tag structure: its `#[data(offset())]` byte
offset and the fixed byte width its leaf type consumes, as produced by the
derive macro of `infinite-rs-derive/src/lib.rs`. -/
structure ShapeField where
  offset : Nat
  width : Nat
  deriving DecidableEq, Repr

/-- A structure shape: the `#[data(size())]` total size plus the declared
fields.  The embedding instantiates the derive template at element
structures all of whose fields are fixed-width scalars (the "fixed fields"
of the resolver). -/
structure Shape where
  size : Nat
  fields : List ShapeField
  deriving DecidableEq, Repr

/-- The per-field reads of the generated `TagStructure::read`: seek to
`main_offset + field_offset` and read the leaf value. -/
def shapeReadFields (mainOffset : Nat) : List ShapeField → RdM (List (List Nat))
  | [] => pure []
  | f :: rest => do
    seekStart (mainOffset + f.offset)
    let v ← readBytes f.width
    let vs ← shapeReadFields mainOffset rest
    pure (v :: vs)

/-- The generated `TagStructure::read` of `infinite-rs-derive/src/lib.rs`:
record the stream position as the structure's start, read every declared
field at its offset, then seek to `start + size`.  A record value is the
list of its fields' byte contents. -/
def shapeRead (sh : Shape) : RdM (List (List Nat)) := do
  let mainOffset ← streamPosition
  let vals ← shapeReadFields mainOffset sh.fields
  seekStart (mainOffset + sh.size)
  pure vals

/-- The element loop of `FieldBlock::load_blocks` over the datablock-local
reader: read one element, recurse into its field blocks (a no-op for
scalar-only element shapes), then seek the local reader to
`block_size * i` before the next iteration. -/
def loadBlocksLoop (sh : Shape) (blockBuffer : List Nat) :
    Nat → Nat → Nat → Except Err (List (List (List Nat)) × Nat)
  | 0, _, pos => .ok ([], pos)
  | n + 1, i, pos =>
    match shapeRead sh blockBuffer pos with
    | (.ok elem, _) =>
      match loadBlocksLoop sh blockBuffer n (i + 1) (sh.size * i) with
      | .ok (rest, posFinal) => .ok (elem :: rest, posFinal)
      | .error e => .error e
    | (.error e, _) => .error e

/-- `FieldBlock::load_blocks` from `src/tag/types/common_types.rs`: a zero
runtime count resolves to no elements; otherwise the struct table is
searched for an entry whose `(field_block, field_offset)` equals the field's
address and whose `target_index` is not `-1`; without a match the field
stays empty; with a match, the datablock selected by `target_index` is read
into a local buffer once and `size` elements of the element shape are read
from it.  The monad state is the outer full-tag reader; the returned value
is the resolved element list. -/
def loadBlocks (sh : Shape) (size : Nat) (currentBlock : Int)
    (collectionOffset : Nat) (structs : List TagStruct)
    (blocks : List TagDataBlock) : RdM (List (List (List Nat))) :=
  if size = 0 then
    pure []
  else
    match structs.find? (fun s =>
        s.fieldBlock == currentBlock &&
        s.fieldOffset == collectionOffset &&
        s.targetIndex != -1) with
    | none => pure []
    | some blockStruct =>
      match blocks[usizeOf blockStruct.targetIndex]? with
      | none => rdThrow .rustPanic
      | some block => do
        seekStart block.offset
        let blockBuffer ← readBytes block.entrySize
        match loadBlocksLoop sh blockBuffer size 0 0 with
        | .ok (elements, _) => pure elements
        | .error e => rdThrow e

/-! ## Supporting lemmas -/

theorem readBytes_ok (n : Nat) (data : List Nat) (pos : Nat)
    (h : pos + n ≤ data.length) :
    readBytes n data pos = (.ok ((data.drop pos).take n), pos + n) := by
  simp [readBytes, h]

theorem readBytes_ok_length {n : Nat} {data : List Nat} {pos pos1 : Nat}
    {bs : List Nat} (h : readBytes n data pos = (.ok bs, pos1)) :
    bs.length = n := by
  by_cases hb : pos + n ≤ data.length
  · rw [readBytes_ok n data pos hb] at h
    cases h
    simp
    omega
  · simp [readBytes, hb] at h

theorem setSlice_length {data src : List Nat} {off : Nat}
    (h : off + src.length ≤ data.length) :
    (setSlice data off src).length = data.length := by
  simp [setSlice]
  omega

theorem readU32_ok (data : List Nat) (pos : Nat)
    (h : pos + 4 ≤ data.length) :
    readU32 data pos = (.ok (le ((data.drop pos).take 4)), pos + 4) := by
  simp [readU32, RdM.bind_apply, readBytes_ok 4 data pos h, RdM.pure_apply]

theorem readI32_ok (data : List Nat) (pos : Nat)
    (h : pos + 4 ≤ data.length) :
    readI32 data pos =
      (.ok (toSigned 32 (le ((data.drop pos).take 4))), pos + 4) := by
  simp [readI32, RdM.bind_apply, readU32_ok data pos h, RdM.pure_apply]

/-! ## C3: the all-`0xFF` fixed-string sentinel -/

/-- C3 (counterexample): the claim states that for every length `n`, `n`
bytes all equal to `0xFF` decode to the empty string and never yield an
encoding error.  Reading a fixed string of length 1 from the single byte
`0xFF` yields the UTF-8 encoding error: the sentinel comparison in
`read_fixed_string` only matches the literal 4-byte pattern. -/
theorem c3_all_ff_length_one_errors :
    readFixedString 1 [255] 0 = (.error .utf8ReadingError, 1) := rfl

/-- C3 (amended): an all-`0xFF` input to `read_fixed_string` decodes to the
empty string exactly when its length is 4 (the sentinel pattern) or 0
(trivially empty and valid UTF-8); every other all-`0xFF` length yields the
UTF-8 encoding error.  In all cases exactly `n` bytes are consumed. -/
theorem c3_ff_sentinel_only_length_four (n : Nat) (data : List Nat)
    (pos : Nat) (hlen : pos + n ≤ data.length)
    (hff : (data.drop pos).take n = List.replicate n 255) :
    readFixedString n data pos =
      if n = 0 ∨ n = 4 then (.ok [], pos + n)
      else (.error .utf8ReadingError, pos + n) := by
  rw [readFixedString, RdM.bind_apply, readBytes_ok n data pos hlen, hff]
  by_cases h0 : n = 0
  · subst h0
    simp only [List.replicate]
    norm_num
    rfl
  by_cases h4 : n = 4
  · subst h4
    norm_num
    rfl
  · obtain ⟨m, rfl⟩ : ∃ m, n = m + 1 := ⟨n - 1, by omega⟩
    rw [List.replicate_succ]
    have hne : (255 :: List.replicate m 255) ≠ [255, 255, 255, 255] := by
      intro hc
      apply h4
      have hl := congrArg List.length hc
      simp at hl
      omega
    have hnor : ¬ (m + 1 = 0 ∨ m + 1 = 4) := by omega
    have hinvalid : utf8Valid (255 :: List.replicate m 255) = false := rfl
    simp only [if_neg hne, if_neg hnor, hinvalid]
    norm_num
    rfl

/-- C3 (witness for the amended theorem): at length 4 the all-`0xFF` bytes
decode to the empty string, and at length 1 they yield the encoding
error. -/
theorem c3_ff_sentinel_only_length_four_witness :
    readFixedString 4 [255, 255, 255, 255] 0 = (.ok [], 4) ∧
    readFixedString 2 [255, 255] 0 = (.error .utf8ReadingError, 2) := by
  constructor
  · have h := c3_ff_sentinel_only_length_four 4 [255, 255, 255, 255] 0
      (by decide) (by decide)
    simpa using h
  · have h := c3_ff_sentinel_only_length_four 2 [255, 255] 0
      (by decide) (by decide)
    simpa using h

/-! ## C5: magic and version are validated before anything else -/

/-- C5: in both `ModuleHeader::read` and `TagHeader::read`, the magic value
and then the version are validated before any other header field or table is
read: a corrupt magic yields `IncorrectMagic` with the cursor advanced
exactly 4 bytes, and a good magic followed by a corrupt version yields
`IncorrectVersion` with the cursor advanced exactly 8 bytes — so no later
field or table read has occurred in either failure case. -/
theorem c5_magic_then_version_validated_first :
    (∀ (data : List Nat) (pos : Nat), pos + 4 ≤ data.length →
      le ((data.drop pos).take 4) ≠ MODULE_HEADER_MAGIC →
      moduleHeaderRead data pos =
        (.error (.moduleError (.incorrectMagic (le ((data.drop pos).take 4)))),
         pos + 4)) ∧
    (∀ (data : List Nat) (pos : Nat), pos + 8 ≤ data.length →
      le ((data.drop pos).take 4) = MODULE_HEADER_MAGIC →
      ModuleVersion.tryFromPrimitive
        (toSigned 32 (le ((data.drop (pos + 4)).take 4))) = none →
      moduleHeaderRead data pos =
        (.error (.moduleError (.incorrectVersion
          (toSigned 32 (le ((data.drop (pos + 4)).take 4))))), pos + 8)) ∧
    (∀ (data : List Nat) (pos : Nat), pos + 4 ≤ data.length →
      le ((data.drop pos).take 4) ≠ TAG_HEADER_MAGIC →
      tagHeaderRead data pos =
        (.error (.tagError (.incorrectMagic (le ((data.drop pos).take 4)))),
         pos + 4)) ∧
    (∀ (data : List Nat) (pos : Nat), pos + 8 ≤ data.length →
      le ((data.drop pos).take 4) = TAG_HEADER_MAGIC →
      toSigned 32 (le ((data.drop (pos + 4)).take 4)) ≠ TAG_HEADER_VERSION →
      tagHeaderRead data pos =
        (.error (.tagError (.incorrectVersion
          (toSigned 32 (le ((data.drop (pos + 4)).take 4))))), pos + 8)) := by
  refine ⟨?_, ?_, ?_, ?_⟩
  · intro data pos hlen hmagic
    rw [moduleHeaderRead, RdM.bind_apply, readU32_ok data pos hlen]
    simp only [if_pos hmagic, RdM.throw_apply]
  · intro data pos hlen hmagic hver
    have h4 : pos + 4 ≤ data.length := by omega
    have h8 : (pos + 4) + 4 ≤ data.length := by omega
    rw [moduleHeaderRead, RdM.bind_apply, readU32_ok data pos h4]
    simp only [hmagic, ne_eq, not_true_eq_false, if_false, ite_false,
      if_neg (by simp : ¬ MODULE_HEADER_MAGIC ≠ MODULE_HEADER_MAGIC)]
    rw [RdM.bind_apply, readI32_ok data (pos + 4) h8]
    simp only [hver, RdM.throw_apply]
  · intro data pos hlen hmagic
    rw [tagHeaderRead, RdM.bind_apply, readU32_ok data pos hlen]
    simp only [if_pos hmagic, RdM.throw_apply]
  · intro data pos hlen hmagic hver
    have h4 : pos + 4 ≤ data.length := by omega
    have h8 : (pos + 4) + 4 ≤ data.length := by omega
    rw [tagHeaderRead, RdM.bind_apply, readU32_ok data pos h4]
    simp only [hmagic, ne_eq, not_true_eq_false, if_false, ite_false,
      if_neg (by simp : ¬ TAG_HEADER_MAGIC ≠ TAG_HEADER_MAGIC)]
    rw [RdM.bind_apply, readI32_ok data (pos + 4) h8]
    simp only [if_pos hver, RdM.throw_apply]

/-- C5 (witness): concrete corrupt headers.  A module header starting with
4 zero bytes fails with `IncorrectMagic` after reading only those 4 bytes;
a tag header with the correct `ucsh` magic but version 17 fails with
`IncorrectVersion` after reading only 8 bytes. -/
theorem c5_magic_then_version_validated_first_witness :
    moduleHeaderRead [0, 0, 0, 0, 0, 0, 0, 0] 0 =
      (.error (.moduleError (.incorrectMagic 0)), 4) ∧
    tagHeaderRead [117, 99, 115, 104, 17, 0, 0, 0] 0 =
      (.error (.tagError (.incorrectVersion 17)), 8) := by
  constructor
  · have h := c5_magic_then_version_validated_first.1 [0, 0, 0, 0, 0, 0, 0, 0]
      0 (by decide) (by decide)
    simpa using h
  · have h := c5_magic_then_version_validated_first.2.2.2
      [117, 99, 115, 104, 17, 0, 0, 0] 0 (by decide) (by decide) (by decide)
    simpa using h

/-! ## C6: unmatched or empty block fields resolve to the empty list -/

/-- C6: for a block (array) field, if no struct-table entry matches its
`(field_block, field_offset)` address with `target_index != -1`, or the
declared runtime count is 0, `load_blocks` leaves the element list empty and
succeeds, never erring — and the outer reader is not even touched. -/
theorem c6_unmatched_or_empty_block_field_is_empty
    (sh : Shape) (size : Nat) (currentBlock : Int) (collectionOffset : Nat)
    (structs : List TagStruct) (blocks : List TagDataBlock)
    (data : List Nat) (pos : Nat)
    (h : size = 0 ∨
      structs.find? (fun s =>
        s.fieldBlock == currentBlock &&
        s.fieldOffset == collectionOffset &&
        s.targetIndex != -1) = none) :
    loadBlocks sh size currentBlock collectionOffset structs blocks data pos =
      (.ok [], pos) := by
  rw [loadBlocks]
  rcases h with h | h
  · simp [h, RdM.pure_apply]
  · by_cases hs : size = 0
    · simp [hs, RdM.pure_apply]
    · simp [hs, h, RdM.pure_apply]

/-- C6 (witness): a block field of declared count 3 against an empty struct
table resolves to the empty list with no error, and a block field of
declared count 0 does as well even when a matching struct exists. -/
theorem c6_unmatched_or_empty_block_field_is_empty_witness :
    loadBlocks ⟨4, [⟨0, 4⟩]⟩ 3 0 16 [] [⟨8, 0, .tagData, 0⟩] [1, 2, 3] 0 =
      (.ok [], 0) ∧
    loadBlocks ⟨4, [⟨0, 4⟩]⟩ 0 0 16
      [⟨0, .tagBlock, 0, 0, 0, 16⟩] [⟨8, 0, .tagData, 0⟩] [1, 2, 3] 0 =
      (.ok [], 0) := by
  constructor
  · exact c6_unmatched_or_empty_block_field_is_empty _ _ _ _ _ _ _ _
      (Or.inr (by decide))
  · exact c6_unmatched_or_empty_block_field_is_empty _ _ _ _ _ _ _ _
      (Or.inl rfl)

/-! ## C7: negative block index is a dedicated pre-read failure -/

/-- C7: when an entry's `block_count` is non-zero and its stored
`block_index` is negative, `read_multiple_blocks` fails with the dedicated
`NegativeBlockIndex` corruption error with the reader cursor untouched (the
check precedes even the initial seek), and the end-to-end entry load
`ModuleFileEntry::read_tag` surfaces exactly that error (having performed
only its initial rewind, no block reads). -/
theorem c7_negative_block_index_fails_before_reads :
    (∀ (oracle : KrakenOracle) (entry : ModuleFileEntry)
      (blocks : List ModuleBlockEntry) (fileOffset : Nat) (data : List Nat)
      (streamData : List Nat) (pos : Nat),
      entry.blockIndex < 0 →
      readMultipleBlocks oracle entry blocks fileOffset data streamData pos =
        (.error (.moduleError (.negativeBlockIndex entry.blockIndex)), pos)) ∧
    (∀ (oracle : KrakenOracle) (version : ModuleVersion)
      (blocks : List ModuleBlockEntry) (dataOffset : Nat)
      (entry : ModuleFileEntry) (streamData : List Nat) (pos : Nat),
      ¬ entry.isLoaded → entry.blockCount ≠ 0 → entry.blockIndex < 0 →
      entryReadTag oracle version blocks dataOffset entry streamData pos =
        (.error (.moduleError (.negativeBlockIndex entry.blockIndex)), 0)) := by
  constructor
  · intro oracle entry blocks fileOffset data streamData pos h
    rw [readMultipleBlocks]
    simp [h, RdM.throw_apply]
  · intro oracle version blocks dataOffset entry streamData pos hnl hbc hbi
    rw [entryReadTag, if_neg hnl, RdM.bind_apply]
    simp only [seekStart]
    rw [if_pos hbc, RdM.bind_apply, readMultipleBlocks]
    simp [hbi, RdM.throw_apply]

/-- C7 (witness): a concrete unloaded entry with one declared block and
stored block index `-1` fails with the `NegativeBlockIndex(-1)` error. -/
theorem c7_negative_block_index_fails_before_reads_witness :
    readMultipleBlocks (fun _ _ => (0, []))
      { (default : ModuleFileEntry) with blockCount := 1, blockIndex := -1 }
      [] 0 [0] [9, 9] 5 =
      (.error (.moduleError (.negativeBlockIndex (-1))), 5) ∧
    entryReadTag (fun _ _ => (0, [])) .season3 []
      0 { (default : ModuleFileEntry) with blockCount := 1, blockIndex := -1 }
      [9, 9] 5 =
      (.error (.moduleError (.negativeBlockIndex (-1))), 0) := by
  constructor
  · exact c7_negative_block_index_fails_before_reads.1 _ _ _ _ _ _ _
      (by decide)
  · exact c7_negative_block_index_fails_before_reads.2 _ _ _ _ _ _ _
      (by decide) (by decide) (by decide)

/-! ## C2: single-block assembly -/

/-- C2: for single-block assembly (the zero-declared-blocks path),
`read_single_block` reads exactly `total_compressed_size` bytes at the
computed file offset; when the compressed size equals the uncompressed size
the assembled buffer is those raw input bytes exactly and the decompressor
is never invoked (the recorded call list is empty); when the sizes differ,
the decompressor is invoked once with the declared uncompressed size as the
expected output length and its output becomes the buffer verbatim (a failed
decompression propagates). -/
theorem c2_single_block_raw_or_decompressed (oracle : KrakenOracle)
    (entry : ModuleFileEntry) (fileOffset : Nat) (data : List Nat)
    (streamData : List Nat) (pos : Nat)
    (hlen : fileOffset + entry.totalCompressedSize ≤ streamData.length)
    (hdata : data.length = entry.totalUncompressedSize) :
    (entry.totalCompressedSize = entry.totalUncompressedSize →
      readSingleBlock oracle entry fileOffset data streamData pos =
        (.ok ((streamData.drop fileOffset).take entry.totalCompressedSize,
          []), fileOffset + entry.totalCompressedSize)) ∧
    (entry.totalCompressedSize ≠ entry.totalUncompressedSize →
      readSingleBlock oracle entry fileOffset data streamData pos =
        (match krakenDecompress oracle
            ((streamData.drop fileOffset).take entry.totalCompressedSize)
            entry.totalUncompressedSize with
         | .ok out =>
           (.ok (out,
             [⟨(streamData.drop fileOffset).take entry.totalCompressedSize,
               entry.totalUncompressedSize⟩]),
            fileOffset + entry.totalCompressedSize)
         | .error e => (.error e, fileOffset + entry.totalCompressedSize))) := by
  constructor
  · intro heq
    rw [readSingleBlock, RdM.bind_apply]
    simp only [seekStart]
    rw [RdM.bind_apply, readBytes_ok _ _ _ hlen]
    have hblock :
        ((streamData.drop fileOffset).take
          entry.totalCompressedSize).length = data.length := by
      simp [List.length_take, List.length_drop]
      omega
    simp only [if_pos heq, if_pos hblock, RdM.pure_apply]
  · intro hne
    rw [readSingleBlock, RdM.bind_apply]
    simp only [seekStart]
    rw [RdM.bind_apply, readBytes_ok _ _ _ hlen]
    simp only [if_neg hne]
    cases hk : krakenDecompress oracle
        ((streamData.drop fileOffset).take entry.totalCompressedSize)
        entry.totalUncompressedSize with
    | ok out => simp [hk, RdM.pure_apply]
    | error e => simp [hk, RdM.throw_apply]

/-- C2 (witness): on the concrete stream `[7, 8, 9]`, a 2-byte raw entry
(compressed = uncompressed = 2) at offset 1 assembles to exactly those raw
bytes `[8, 9]` with no decompressor call; a 1-byte compressed entry
(uncompressed 2) at offset 1 invokes the decompressor on `[8]` with expected
size 2, and the oracle's 2-byte output `[5, 6]` becomes the buffer
verbatim. -/
theorem c2_single_block_raw_or_decompressed_witness :
    readSingleBlock (fun _ _ => (2, [5, 6]))
      { (default : ModuleFileEntry) with
        totalCompressedSize := 2, totalUncompressedSize := 2 }
      1 [0, 0] [7, 8, 9] 0 = (.ok ([8, 9], []), 3) ∧
    readSingleBlock (fun _ _ => (2, [5, 6]))
      { (default : ModuleFileEntry) with
        totalCompressedSize := 1, totalUncompressedSize := 2 }
      1 [0, 0] [7, 8, 9] 0 = (.ok ([5, 6], [⟨[8], 2⟩]), 2) := by
  constructor
  · have h := (c2_single_block_raw_or_decompressed (fun _ _ => (2, [5, 6]))
      { (default : ModuleFileEntry) with
        totalCompressedSize := 2, totalUncompressedSize := 2 }
      1 [0, 0] [7, 8, 9] 0 (by decide) (by decide)).1 (by decide)
    simpa using h
  · have h := (c2_single_block_raw_or_decompressed (fun _ _ => (2, [5, 6]))
      { (default : ModuleFileEntry) with
        totalCompressedSize := 1, totalUncompressedSize := 2 }
      1 [0, 0] [7, 8, 9] 0 (by decide) (by decide)).2 (by decide)
    rw [h]
    rfl

/-! ## C4: tag-path resolution terminates with a depth bound -/

/-- A minimal module header for concrete test modules. -/
def emptyHeader : ModuleHeader :=
  ⟨MODULE_HEADER_MAGIC, .season3, 0, 1, 0, 0, 0, 0, 0, 0, 0, 0, 0, 0⟩

/-- A crafted module whose single entry is an unnamed resource whose
`parent_index` points back at itself: the parent chain cycles. -/
def selfCycleModule : ModuleFile :=
  ⟨emptyHeader,
   [{ (default : ModuleFileEntry) with tagName := "-1", parentIndex := 0 }],
   [], [], 0, none, none, false⟩

/-- C4: `get_tag_path` terminates for every module state: whenever the
recursion depth exceeds the bound of 3 it returns the `RecursionDepth` error
instead of recursing further, and in particular on a crafted entry whose
`parent_index` cycles back to itself the resolution bottoms out in the
`RecursionDepth` error rather than diverging. -/
theorem c4_get_tag_path_depth_bounded :
    (∀ (m : ModuleFile) (index depth : Nat), 3 < depth →
      getTagPath m index depth = .error (.tagError .recursionDepth)) ∧
    getTagPath selfCycleModule 0 0 = .error (.tagError .recursionDepth) := by
  constructor
  · intro m index depth h
    rw [getTagPath]
    simp [h]
  · simp [getTagPath, selfCycleModule, emptyHeader, childOrdinal, default,
      instInhabitedModuleFileEntry]

/-- C4 (witness): the universally quantified bound applied at the crafted
cyclic module with depth 4. -/
theorem c4_get_tag_path_depth_bounded_witness :
    getTagPath selfCycleModule 0 4 = .error (.tagError .recursionDepth) :=
  c4_get_tag_path_depth_bounded.1 selfCycleModule 0 4 (by decide)

/-! ## C1: block-field element resolution and the element cursor -/

/-- C1 (code evaluated at the failing input): resolving a matched block
field of declared count 2, whose datablock holds the 8 bytes
`[1,2,3,4,5,6,7,8]` as two 4-byte elements, produces 2 elements — but both
equal `[1,2,3,4]`, because after element `i` the code repositions the
local cursor to `element_size * i` (that element's own start) instead of
`element_size * (i + 1)`, so element 1 is read again from offset 0.  The
second conjunct records that the datablock's bytes at relative offset
`1 * element_size` — which the claim (and the spec's round-trip property)
require element 1 to equal — are `[5,6,7,8]`, not `[1,2,3,4]`. -/
theorem c1_load_blocks_rereads_previous_element :
    loadBlocks ⟨4, [⟨0, 4⟩]⟩ 2 0 16
      [⟨0, .tagBlock, 0, 0, 0, 16⟩] [⟨8, 0, .tagData, 0⟩]
      [1, 2, 3, 4, 5, 6, 7, 8] 0 =
      (.ok [[[1, 2, 3, 4]], [[1, 2, 3, 4]]], 8) ∧
    (([1, 2, 3, 4, 5, 6, 7, 8] : List Nat).drop (1 * 4)).take 4 =
      [5, 6, 7, 8] := by
  constructor
  · rfl
  · rfl

/-! ## C8: length of the assembled buffer -/

theorem krakenRun_snd_length (oracle : KrakenOracle) (c : List Nat)
    (sz : Nat) : (krakenRun oracle c sz).2.length = sz + 8 := by
  simp [krakenRun]

theorem krakenDecompress_ok_length {oracle : KrakenOracle} {c : List Nat}
    {sz : Nat} {out : List Nat}
    (ho : ∀ inp s, (oracle inp s).1 = (s : Int))
    (h : krakenDecompress oracle c sz = .ok out) :
    out.length = sz := by
  rw [krakenDecompress] at h
  split_ifs at h with h1 h2
  cases h
  have hb := krakenRun_snd_length oracle c sz
  have hr : (krakenRun oracle c sz).1 = (sz : Int) := by
    rw [krakenRun]
    exact ho c sz
  rw [hr] at h2 ⊢
  simp [List.length_take, hb]

theorem readUncompressedBlock_ok_length {block : ModuleBlockEntry}
    {data streamData : List Nat} {pos pos1 : Nat} {d : List Nat}
    (h : readUncompressedBlock block data streamData pos = (.ok d, pos1)) :
    d.length = data.length := by
  rw [readUncompressedBlock] at h
  split_ifs at h with hb
  · rw [RdM.bind_apply] at h
    rcases hrb : readBytes (usizeOf block.compressedSize) streamData pos
      with ⟨res, p⟩
    rw [hrb] at h
    cases res with
    | ok bytes =>
      simp only [RdM.pure_apply] at h
      cases h
      have hl := readBytes_ok_length hrb
      rw [setSlice_length]
      omega
    | error e => simp at h
  · simp [RdM.throw_apply] at h

theorem readCompressedBlock_ok_length {oracle : KrakenOracle}
    {block : ModuleBlockEntry} {data streamData : List Nat} {pos pos1 : Nat}
    {d : List Nat} {calls : List KrakenCall}
    (h : readCompressedBlock oracle block data streamData pos =
      (.ok (d, calls), pos1)) :
    d.length = data.length := by
  rw [readCompressedBlock] at h
  rcases hrb : readBytes (usizeOf block.compressedSize) streamData pos
    with ⟨res, p⟩
  cases res with
  | ok compressed =>
    rw [RdM.bind_ok _ _ hrb] at h
    rcases hk : krakenDecompress oracle compressed
        (usizeOf block.decompressedSize) with out | decompressed
    · rw [hk] at h
      simp [RdM.throw_apply] at h
    · rw [hk] at h
      simp only [] at h
      by_cases hb : usizeOf block.decompressedOffset +
          usizeOf block.decompressedSize ≤ data.length
      · rw [if_pos hb] at h
        by_cases hd : decompressed.length = usizeOf block.decompressedSize
        · rw [if_pos hd] at h
          simp only [RdM.pure_apply, Prod.mk.injEq, Except.ok.injEq] at h
          obtain ⟨⟨hdd, _⟩, _⟩ := h
          subst hdd
          rw [setSlice_length]
          omega
        · rw [if_neg hd] at h
          simp [RdM.throw_apply] at h
      · rw [if_neg hb] at h
        simp [RdM.throw_apply] at h
  | error e =>
    rw [RdM.bind_error _ _ hrb] at h
    simp at h

theorem readBlocksLoop_ok_length {oracle : KrakenOracle} :
    ∀ (bs : List ModuleBlockEntry) (data streamData : List Nat)
      (pos pos1 : Nat) (d : List Nat) (calls : List KrakenCall),
      readBlocksLoop oracle data bs streamData pos = (.ok (d, calls), pos1) →
      d.length = data.length := by
  intro bs
  induction bs with
  | nil =>
    intro data streamData pos pos1 d calls h
    rw [readBlocksLoop] at h
    simp only [RdM.pure_apply] at h
    cases h
    rfl
  | cons block rest ih =>
    intro data streamData pos pos1 d calls h
    rw [readBlocksLoop] at h
    by_cases hc : block.isCompressed
    · rw [if_pos hc] at h
      rcases hstep : readCompressedBlock oracle block data streamData pos
        with ⟨res, p⟩
      cases res with
      | ok step =>
        rw [RdM.bind_ok _ _ hstep] at h
        beta_reduce at h
        rcases hnext : readBlocksLoop oracle step.1 rest streamData p
          with ⟨res2, p2⟩
        cases res2 with
        | ok next =>
          rw [RdM.bind_ok _ _ hnext] at h
          simp only [RdM.pure_apply, Prod.mk.injEq, Except.ok.injEq] at h
          obtain ⟨⟨hd, hcalls⟩, hp⟩ := h
          subst hd
          have h1 := readCompressedBlock_ok_length
            (show _ = (.ok (step.1, step.2), p) by rw [hstep])
          have h2 := ih step.1 streamData p p2 next.1 next.2 (by rw [hnext])
          omega
        | error e =>
          rw [RdM.bind_error _ _ hnext] at h
          simp at h
      | error e =>
        rw [RdM.bind_error _ _ hstep] at h
        simp at h
    · rw [if_neg hc] at h
      rcases hstep : readUncompressedBlock block data streamData pos
        with ⟨res, p⟩
      cases res with
      | ok dnew =>
        rw [RdM.bind_ok _ _ hstep] at h
        rw [RdM.bind_ok _ _
          (RdM.pure_apply (dnew, ([] : List KrakenCall)) streamData p)] at h
        beta_reduce at h
        rcases hnext : readBlocksLoop oracle dnew rest streamData p
          with ⟨res2, p2⟩
        cases res2 with
        | ok next =>
          rw [RdM.bind_ok _ _ hnext] at h
          simp only [RdM.pure_apply, Prod.mk.injEq, Except.ok.injEq] at h
          obtain ⟨⟨hd, hcalls⟩, hp⟩ := h
          subst hd
          have h1 := readUncompressedBlock_ok_length hstep
          have h2 := ih dnew streamData p p2 next.1 next.2 (by rw [hnext])
          omega
        | error e =>
          rw [RdM.bind_error _ _ hnext] at h
          simp at h
      | error e =>
        rw [RdM.bind_error _ _ hstep] at h
        simp at h

theorem readMultipleBlocks_ok_length {oracle : KrakenOracle}
    {entry : ModuleFileEntry} {blocks : List ModuleBlockEntry}
    {fileOffset : Nat} {data streamData : List Nat} {pos pos1 : Nat}
    {d : List Nat} {calls : List KrakenCall}
    (h : readMultipleBlocks oracle entry blocks fileOffset data streamData
      pos = (.ok (d, calls), pos1)) :
    d.length = data.length := by
  rw [readMultipleBlocks] at h
  split_ifs at h with hneg
  · simp [RdM.throw_apply] at h
  · rw [RdM.bind_apply] at h
    simp only [seekStart] at h
    split_ifs at h with hrange
    · exact readBlocksLoop_ok_length _ _ _ _ _ _ _ h
    · simp [RdM.throw_apply] at h

theorem readSingleBlock_ok_length {oracle : KrakenOracle}
    {entry : ModuleFileEntry} {fileOffset : Nat}
    {data streamData : List Nat} {pos pos1 : Nat} {d : List Nat}
    {calls : List KrakenCall}
    (ho : ∀ inp s, (oracle inp s).1 = (s : Int))
    (hdata : data.length = entry.totalUncompressedSize)
    (h : readSingleBlock oracle entry fileOffset data streamData pos =
      (.ok (d, calls), pos1)) :
    d.length = entry.totalUncompressedSize := by
  rw [readSingleBlock] at h
  rw [RdM.bind_ok _ _ (rfl :
    seekStart fileOffset streamData pos = (.ok (), fileOffset))] at h
  rcases hrb : readBytes entry.totalCompressedSize streamData fileOffset
    with ⟨res, p⟩
  cases res with
  | ok block =>
    rw [RdM.bind_ok _ _ hrb] at h
    by_cases hsz : entry.totalCompressedSize = entry.totalUncompressedSize
    · rw [if_pos hsz] at h
      by_cases hbl : block.length = data.length
      · rw [if_pos hbl] at h
        simp only [RdM.pure_apply, Prod.mk.injEq, Except.ok.injEq] at h
        obtain ⟨⟨hdd, _⟩, _⟩ := h
        subst hdd
        rw [hbl, hdata]
      · rw [if_neg hbl] at h
        simp [RdM.throw_apply] at h
    · rw [if_neg hsz] at h
      rcases hk : krakenDecompress oracle block entry.totalUncompressedSize
        with out | decompressed
      · rw [hk] at h
        simp [RdM.throw_apply] at h
      · rw [hk] at h
        simp only [RdM.pure_apply, Prod.mk.injEq, Except.ok.injEq] at h
        obtain ⟨⟨hdd, _⟩, _⟩ := h
        subst hdd
        exact krakenDecompress_ok_length ho hk
  | error e =>
    rw [RdM.bind_error _ _ hrb] at h
    simp at h

theorem entryStoreLoaded_ok_dataStream
    {version : ModuleVersion} {entry : ModuleFileEntry}
    {assembled : List Nat × List KrakenCall} {streamData : List Nat}
    {p pos1 : Nat} {e1 : ModuleFileEntry} {calls : List KrakenCall}
    (h : entryStoreLoaded version entry assembled streamData p =
      (.ok (e1, calls), pos1)) :
    ∃ q, e1.dataStream = some ⟨assembled.1, q⟩ := by
  rw [entryStoreLoaded] at h
  by_cases ht : entry.tagId ≠ -1
  · rw [if_pos ht] at h
    rcases htf : runRd (tagFileRead version) ⟨assembled.1, 0⟩
      with ⟨res2, stream1⟩
    rw [htf] at h
    cases res2 with
    | ok tagfile =>
      simp only [RdM.pure_apply, Prod.mk.injEq, Except.ok.injEq] at h
      obtain ⟨⟨he, _⟩, _⟩ := h
      subst he
      have hd : stream1.data = assembled.1 := by
        have h2 := congrArg (fun z => z.2.data) htf
        simp only [runRd] at h2
        exact h2.symm
      exact ⟨stream1.pos, by rw [← hd]⟩
    | error e2 => simp [RdM.throw_apply] at h
  · rw [if_neg ht] at h
    simp only [RdM.pure_apply, Prod.mk.injEq, Except.ok.injEq] at h
    obtain ⟨⟨he, _⟩, _⟩ := h
    subst he
    exact ⟨0, rfl⟩

theorem entryStoreLoaded_ok_tagId
    {version : ModuleVersion} {entry : ModuleFileEntry}
    {assembled : List Nat × List KrakenCall} {streamData : List Nat}
    {p pos1 : Nat} {e1 : ModuleFileEntry} {calls : List KrakenCall}
    (h : entryStoreLoaded version entry assembled streamData p =
      (.ok (e1, calls), pos1)) :
    e1.tagId = entry.tagId := by
  rw [entryStoreLoaded] at h
  by_cases ht : entry.tagId ≠ -1
  · rw [if_pos ht] at h
    rcases htf : runRd (tagFileRead version) ⟨assembled.1, 0⟩
      with ⟨res2, stream1⟩
    rw [htf] at h
    cases res2 with
    | ok tagfile =>
      simp only [RdM.pure_apply, Prod.mk.injEq, Except.ok.injEq] at h
      obtain ⟨⟨he, _⟩, _⟩ := h
      subst he
      rfl
    | error e2 => simp [RdM.throw_apply] at h
  · rw [if_neg ht] at h
    simp only [RdM.pure_apply, Prod.mk.injEq, Except.ok.injEq] at h
    obtain ⟨⟨he, _⟩, _⟩ := h
    subst he
    rfl

/-- C8 (counterexample): the claim states that every successful block
assembly stores a buffer of exactly `total_uncompressed_size` bytes.  With a
decompressor that reports producing only 1 byte (its return code, which the
wrapper accepts since it only rejects sizes beyond `expected + 8`), an
unloaded zero-block entry with compressed size 1 and uncompressed size 2
loads successfully — but the stored buffer is the decompressor's 1-byte
output `[9]`, not 2 bytes. -/
theorem c8_short_decompressor_output_shrinks_buffer :
    entryReadTag (fun _ _ => (1, [9, 9, 9, 9, 9, 9, 9, 9, 9, 9]))
      .season3 [] 0
      { (default : ModuleFileEntry) with
        totalCompressedSize := 1, totalUncompressedSize := 2, tagId := -1 }
      [171] 0 =
      (.ok
        ({ (default : ModuleFileEntry) with
           totalCompressedSize := 1, totalUncompressedSize := 2, tagId := -1,
           dataStream := some ⟨[9], 0⟩, isLoaded := true },
         [⟨[171], 2⟩]), 1) ∧
    ([9] : List Nat).length ≠ 2 := ⟨rfl, by decide⟩

/-- C8 (amended): whenever block assembly succeeds for an unloaded entry and
the decompressor reports exactly the expected output size (the guarantee the
raw, multi-block compressed, and multi-block raw paths already enforce
structurally), the buffer stored as the entry's data stream has length
exactly `total_uncompressed_size`; without that proviso the zero-block
compressed path stores the decompressor's output verbatim, whose length is
the size the decompressor reported. -/
theorem c8_assembled_buffer_has_uncompressed_length
    (oracle : KrakenOracle) (version : ModuleVersion)
    (blocks : List ModuleBlockEntry) (dataOffset : Nat)
    (entry : ModuleFileEntry) (streamData : List Nat) (pos pos1 : Nat)
    (e1 : ModuleFileEntry) (calls : List KrakenCall)
    (ho : ∀ inp s, (oracle inp s).1 = (s : Int))
    (hnl : ¬ entry.isLoaded = true)
    (h : entryReadTag oracle version blocks dataOffset entry streamData pos =
      (.ok (e1, calls), pos1)) :
    ∃ s, e1.dataStream = some s ∧
      s.data.length = entry.totalUncompressedSize := by
  rw [entryReadTag, if_neg hnl] at h
  rw [RdM.bind_ok _ _ (rfl :
    seekStart 0 streamData pos = (.ok (), 0))] at h
  by_cases hbc : entry.blockCount ≠ 0
  · rw [if_pos hbc] at h
    rcases ha : readMultipleBlocks oracle entry blocks
        (dataOffset + entry.dataOffset)
        (List.replicate entry.totalUncompressedSize 0) streamData 0
      with ⟨res, p⟩
    cases res with
    | ok assembled =>
      rw [RdM.bind_ok _ _ ha] at h
      have hlen : assembled.1.length = entry.totalUncompressedSize := by
        have hm := readMultipleBlocks_ok_length
          (show _ = (.ok (assembled.1, assembled.2), p) by rw [ha])
        simpa using hm
      obtain ⟨q, hq⟩ := entryStoreLoaded_ok_dataStream h
      exact ⟨⟨assembled.1, q⟩, hq, hlen⟩
    | error e =>
      rw [RdM.bind_error _ _ ha] at h
      simp at h
  · rw [if_neg hbc] at h
    rcases ha : readSingleBlock oracle entry (dataOffset + entry.dataOffset)
        (List.replicate entry.totalUncompressedSize 0) streamData 0
      with ⟨res, p⟩
    cases res with
    | ok assembled =>
      rw [RdM.bind_ok _ _ ha] at h
      have hlen : assembled.1.length = entry.totalUncompressedSize := by
        exact readSingleBlock_ok_length ho (List.length_replicate _ _)
          (show _ = (.ok (assembled.1, assembled.2), p) by rw [ha])
      obtain ⟨q, hq⟩ := entryStoreLoaded_ok_dataStream h
      exact ⟨⟨assembled.1, q⟩, hq, hlen⟩
    | error e =>
      rw [RdM.bind_error _ _ ha] at h
      simp at h

/-- C8 (witness for the amended theorem): with a decompressor that reports
exactly the expected size, the concrete zero-block compressed entry from the
counterexample loads with a stored buffer of exactly 2 =
`total_uncompressed_size` bytes. -/
theorem c8_assembled_buffer_has_uncompressed_length_witness :
    ∃ s, ({ (default : ModuleFileEntry) with
        totalCompressedSize := 1, totalUncompressedSize := 2, tagId := -1,
        dataStream := some (⟨[7, 7], 0⟩ : Reader),
        isLoaded := true } : ModuleFileEntry).dataStream = some s ∧
      s.data.length = 2 := by
  have h := c8_assembled_buffer_has_uncompressed_length
    (fun _ s => ((s : Int), List.replicate s 7)) .season3 [] 0
    { (default : ModuleFileEntry) with
      totalCompressedSize := 1, totalUncompressedSize := 2, tagId := -1 }
    [171] 0 1
    { (default : ModuleFileEntry) with
      totalCompressedSize := 1, totalUncompressedSize := 2, tagId := -1,
      dataStream := some ⟨[7, 7], 0⟩, isLoaded := true }
    [⟨[171], 2⟩] (fun _ _ => rfl) (by decide) rfl
  exact h

/-! ## C9 and C10: `ModuleFile::read_tag` dispatch -/

theorem runRd_ok {x : RdM α} {r : Reader} {a : α} {r1 : Reader}
    (h : runRd x r = (.ok a, r1)) : x r.data r.pos = (.ok a, r1.pos) := by
  rw [runRd] at h
  obtain ⟨h1, h2⟩ := Prod.mk.injEq _ _ _ _ |>.mp h
  have h3 : (x r.data r.pos).2 = r1.pos := by rw [← h2]
  calc x r.data r.pos
      = ((x r.data r.pos).1, (x r.data r.pos).2) := rfl
    _ = (.ok a, r1.pos) := by rw [h1, h3]

theorem entryReadTag_ok_tagId {oracle : KrakenOracle}
    {version : ModuleVersion} {blocks : List ModuleBlockEntry}
    {dataOffset : Nat} {entry : ModuleFileEntry} {streamData : List Nat}
    {pos pos1 : Nat} {e1 : ModuleFileEntry} {calls : List KrakenCall}
    (h : entryReadTag oracle version blocks dataOffset entry streamData pos =
      (.ok (e1, calls), pos1)) :
    e1.tagId = entry.tagId := by
  rw [entryReadTag] at h
  by_cases hl : entry.isLoaded = true
  · rw [if_pos hl] at h
    simp only [RdM.pure_apply, Prod.mk.injEq, Except.ok.injEq] at h
    obtain ⟨⟨he, _⟩, _⟩ := h
    subst he
    rfl
  · rw [if_neg hl] at h
    rw [RdM.bind_ok _ _ (rfl :
      seekStart 0 streamData pos = (.ok (), 0))] at h
    by_cases hbc : entry.blockCount ≠ 0
    · rw [if_pos hbc] at h
      rcases ha : readMultipleBlocks oracle entry blocks
          (dataOffset + entry.dataOffset)
          (List.replicate entry.totalUncompressedSize 0) streamData 0
        with ⟨res, p⟩
      cases res with
      | ok assembled =>
        rw [RdM.bind_ok _ _ ha] at h
        exact entryStoreLoaded_ok_tagId h
      | error e =>
        rw [RdM.bind_error _ _ ha] at h
        simp at h
    · rw [if_neg hbc] at h
      rcases ha : readSingleBlock oracle entry
          (dataOffset + entry.dataOffset)
          (List.replicate entry.totalUncompressedSize 0) streamData 0
        with ⟨res, p⟩
      cases res with
      | ok assembled =>
        rw [RdM.bind_ok _ _ ha] at h
        exact entryStoreLoaded_ok_tagId h
      | error e =>
        rw [RdM.bind_error _ _ ha] at h
        simp at h

/-- C9: `ModuleFile::read_tag` returns "not present" (`Ok(None)`) without an
error — and with the whole module state untouched — when the entry's
data-offset flags mark it invalid, and whenever it returns successfully with
`Some id`, that id is the selected entry's `tag_id`. -/
theorem c9_read_tag_invalid_none_and_id_on_success
    (oracle : KrakenOracle) (m : ModuleFile) (index : Nat) :
    (∀ file, m.files[index]? = some file →
      file.dataOffsetFlags.invalid = true →
      moduleReadTag oracle m index = (.ok none, m)) ∧
    (∀ (x : Int) (m1 : ModuleFile),
      moduleReadTag oracle m index = (.ok (some x), m1) →
      ∃ file, m.files[index]? = some file ∧ x = file.tagId) := by
  constructor
  · intro file hfile hinv
    rw [moduleReadTag, hfile]
    simp only [hinv, if_true, ite_true]
  · intro x m1 h
    rw [moduleReadTag] at h
    rcases hfile : m.files[index]? with _ | file
    · rw [hfile] at h
      simp at h
    · rw [hfile] at h
      simp only [] at h
      by_cases hinv : file.dataOffsetFlags.invalid = true
      · rw [if_pos hinv] at h
        simp at h
      · rw [if_neg hinv] at h
        by_cases hhd : file.dataOffsetFlags.useHd1 = true
        · rw [if_pos hhd] at h
          rcases hh : m.hd1File with _ | hd1
          · rw [hh] at h
            simp at h
          · rw [hh] at h
            simp only [] at h
            rcases hrun : runRd (entryReadTag oracle m.header.version
                m.blocks
                (if ModuleVersion.leB m.header.version .season3 then
                  m.header.hd1Delta
                else m.fileDataOffset - m.header.hd1Delta) file) hd1
              with ⟨res, after⟩
            rw [hrun] at h
            cases res with
            | ok fc =>
              obtain ⟨file1, kc⟩ := fc
              simp only [Prod.mk.injEq, Except.ok.injEq,
                Option.some.injEq] at h
              obtain ⟨hx, _⟩ := h
              refine ⟨file, rfl, ?_⟩
              rw [← hx]
              exact entryReadTag_ok_tagId (runRd_ok hrun)
            | error e =>
              simp at h
        · rw [if_neg hhd] at h
          rcases hm : m.moduleFile with _ | primary
          · rw [hm] at h
            simp only [Prod.mk.injEq, Except.ok.injEq,
              Option.some.injEq] at h
            exact ⟨file, rfl, h.1.symm⟩
          · rw [hm] at h
            simp only [] at h
            rcases hrun : runRd (entryReadTag oracle m.header.version
                m.blocks m.fileDataOffset file) primary
              with ⟨res, after⟩
            rw [hrun] at h
            cases res with
            | ok fc =>
              obtain ⟨file1, kc⟩ := fc
              simp only [Prod.mk.injEq, Except.ok.injEq,
                Option.some.injEq] at h
              obtain ⟨hx, _⟩ := h
              refine ⟨file, rfl, ?_⟩
              rw [← hx]
              exact entryReadTag_ok_tagId (runRd_ok hrun)
            | error e =>
              simp at h

/-- C9 (witness): a module whose single entry is flagged invalid yields
`Ok(None)` with its state unchanged, and on a module whose single raw entry
(tag id 42) loads from a primary stream, `read_tag` returns `Some 42`, the
entry's tag id. -/
theorem c9_read_tag_invalid_none_and_id_on_success_witness :
    moduleReadTag (fun _ _ => (0, []))
      ⟨emptyHeader,
       [{ (default : ModuleFileEntry) with
          dataOffsetFlags := ⟨false, false, true⟩, tagId := 42 }],
       [], [], 0, some ⟨[], 0⟩, none, false⟩ 0 =
      (.ok none,
       ⟨emptyHeader,
        [{ (default : ModuleFileEntry) with
           dataOffsetFlags := ⟨false, false, true⟩, tagId := 42 }],
        [], [], 0, some ⟨[], 0⟩, none, false⟩) ∧
    (∃ file,
      (⟨emptyHeader,
        [{ (default : ModuleFileEntry) with tagId := -1 }],
        [], [], 0, some ⟨[], 0⟩, none, false⟩ :
          ModuleFile).files[0]? = some file ∧
      (-1 : Int) = file.tagId) := by
  constructor
  · exact (c9_read_tag_invalid_none_and_id_on_success (fun _ _ => (0, []))
      _ 0).1 _ rfl rfl
  · exact (c9_read_tag_invalid_none_and_id_on_success (fun _ _ => (0, []))
      _ 0).2 (-1)
      ⟨emptyHeader,
       [{ (default : ModuleFileEntry) with
          tagId := -1, dataStream := some ⟨[], 0⟩, isLoaded := true }],
       [], [], 0, some ⟨[], 0⟩, none, false⟩ rfl

/-- C10: when an entry's data-offset flags request the auxiliary (HD1)
stream but no auxiliary file was opened for the module (`hd1_file` is
`None`), `read_tag` returns `Ok(None)` — silently reporting the tag as not
present rather than an error — with the module state (the entry included:
its buffer, tag info and loaded flag) completely unchanged. -/
theorem c10_missing_hd1_reports_not_present
    (oracle : KrakenOracle) (m : ModuleFile) (index : Nat)
    (file : ModuleFileEntry)
    (hfile : m.files[index]? = some file)
    (hflag : file.dataOffsetFlags.useHd1 = true)
    (hno : m.hd1File = none) :
    moduleReadTag oracle m index = (.ok none, m) := by
  rw [moduleReadTag, hfile]
  simp only []
  by_cases hinv : file.dataOffsetFlags.invalid = true
  · rw [if_pos hinv]
  · rw [if_neg hinv, if_pos hflag, hno]

/-- C10 (witness): a concrete module with one HD1-flagged entry and no
auxiliary file open reports the tag as not present with nothing changed. -/
theorem c10_missing_hd1_reports_not_present_witness :
    moduleReadTag (fun _ _ => (0, []))
      ⟨emptyHeader,
       [{ (default : ModuleFileEntry) with
          dataOffsetFlags := ⟨true, false, false⟩, tagId := 7 }],
       [], [], 0, some ⟨[], 0⟩, none, false⟩ 0 =
      (.ok none,
       ⟨emptyHeader,
        [{ (default : ModuleFileEntry) with
           dataOffsetFlags := ⟨true, false, false⟩, tagId := 7 }],
        [], [], 0, some ⟨[], 0⟩, none, false⟩) :=
  c10_missing_hd1_reports_not_present (fun _ _ => (0, [])) _ 0 _ rfl rfl rfl

end InfiniteRs
